import Mathlib

/-!
Verification of the orchestration core of the thunderbird-tbsync-mcp
extension (extension/mcp_server/api.js) against its natural-language
specification.

JavaScript strings are modelled as lists of characters (`Str`).  Pure JS
helpers (containsAll, withTagAtEnd, shortTagForEvent, idempotencyKey,
parseDateTimeLocal, ...) are translated function by function.  The stateful
parts (the idempotency cache, the workflow-job table and the asynchronous
workflow bodies) are modelled as explicit state passing: the synchronous
part of each handler is a function from state to response and new state,
and each asynchronous workflow body is a function from the outcomes of its
external calls (sync triggers, calendar mutations, SQL queries) to the
final job record together with the ordered trace of `job.step` labels it
assigns.
-/

namespace TbSyncMcp

/-- JS strings as lists of characters. -/
abbrev Str := List Char

/-- Convenience conversion from Lean string literals. -/
def str (s : String) : Str := s.data

/-- JS whitespace (`\s` / `String.prototype.trim`), restricted to the ASCII
whitespace characters that can actually occur here. -/
def isWs (c : Char) : Bool :=
  c == ' ' || c == '\t' || c == '\n' || c == '\r' || c == '\x0b' || c == '\x0c'

/-- JS `String.prototype.toLowerCase` (simple case mapping). -/
def lowerL (s : Str) : Str := s.map Char.toLower

/-- JS `String.prototype.trim`: drop whitespace from both ends. -/
def trimL (s : Str) : Str := ((s.dropWhile isWs).reverse.dropWhile isWs).reverse

/-- JS `String.prototype.startsWith` on char lists: first argument is the
candidate prefix. -/
def isPrefixOfL : Str → Str → Bool
  | [], _ => true
  | _ :: _, [] => false
  | c :: cs, d :: ds => c == d && isPrefixOfL cs ds

/-- JS `String.prototype.endsWith`. -/
def endsWithL (s t : Str) : Bool := isPrefixOfL t.reverse s.reverse

/-- JS `String.prototype.includes`: substring containment. -/
def containsSeq : Str → Str → Bool
  | [], n => n.isEmpty
  | l@(_ :: t), n => isPrefixOfL n l || containsSeq t n

/-- The loop of api.js `containsAll` (the haystack is already lowercased by
the caller): each needle is lowercased and trimmed, empty needles are
skipped, and every remaining needle must occur in the haystack. -/
def containsAllGo (h : Str) : List Str → Bool
  | [] => true
  | n :: rest =>
    let nn := trimL (lowerL n)
    if nn.isEmpty then containsAllGo h rest
    else if containsSeq h nn then containsAllGo h rest
    else false

/-- api.js `containsAll(haystack, needles)`. -/
def containsAllL (haystack : Str) (needles : List Str) : Bool :=
  containsAllGo (lowerL haystack) needles

/-- api.js `withTagAtEnd(title, tag)`: trim both, return the trimmed title
unchanged when the tag is empty or the title already ends in `(tag)`,
otherwise append a space and the parenthesised tag. -/
def withTagAtEnd (title tag : Str) : Str :=
  let base := trimL title
  let t := trimL tag
  if t.isEmpty then base
  else if endsWithL base ('(' :: t ++ [')']) then base
  else base ++ ' ' :: '(' :: t ++ [')']

/-! ### JS argument objects and truthiness -/

/-- The key/value argument object received by the calendar tools.  Absent
properties are `none`. -/
structure Args where
  tbsyncUser : Option Str := none
  calendarId : Option Str := none
  calendarName : Option Str := none
  title : Option Str := none
  description : Option Str := none
  allDay : Option Bool := none
  date : Option Str := none
  start : Option Str := none
  endStr : Option Str := none
  mcpTag : Option Str := none
  titleMustContainAll : Option (List Str) := none

/-- JS truthiness of an optional string: absent and empty are falsy. -/
def truthy : Option Str → Bool
  | none => false
  | some s => !s.isEmpty

/-- JS truthiness of an optional boolean: only `true` is truthy. -/
def truthyB (o : Option Bool) : Bool := o == some true

/-- JS `String(x || "")`: absent becomes the empty string. -/
def getS (o : Option Str) : Str := o.getD []

/-! ### Date/time parsing (api.js parseDateTimeLocal / makeTimedRange)

The external `calIDateTime` values are reduced to the wall-clock field
tuple produced by the parser; comparisons and the `nativeTime` microsecond
timestamp are computed with proleptic-Gregorian calendar arithmetic, which
is how the calendar component normalises and orders the field values the
code feeds into it (month is 1-based here; the code subtracts one before
storing it). -/

/-- The five numeric fields captured by the
`^(\d{4})-(\d{2})-(\d{2})[T\s](\d{2}):(\d{2})$` regular expression. -/
structure DTFields where
  y : Nat
  mo : Nat
  d : Nat
  hh : Nat
  mm : Nat
deriving DecidableEq, Repr

/-- Numeric value of two decimal digit characters. -/
def digit2 (a b : Char) : Nat := (a.toNat - 48) * 10 + (b.toNat - 48)

/-- Numeric value of four decimal digit characters. -/
def digit4 (a b c d : Char) : Nat := digit2 a b * 100 + digit2 c d

/-- api.js `parseDateTimeLocal`: trim, then match
`YYYY-MM-DDTHH:MM` (the separator may also be whitespace). -/
def parseDateTimeLocal (sIn : Str) : Option DTFields :=
  match trimL sIn with
  | [y1, y2, y3, y4, '-', m1, m2, '-', d1, d2, sep, h1, h2, ':', n1, n2] =>
    if y1.isDigit && y2.isDigit && y3.isDigit && y4.isDigit &&
        m1.isDigit && m2.isDigit && d1.isDigit && d2.isDigit &&
        h1.isDigit && h2.isDigit && n1.isDigit && n2.isDigit &&
        (sep == 'T' || isWs sep) then
      some ⟨digit4 y1 y2 y3 y4, digit2 m1 m2, digit2 d1 d2, digit2 h1 h2, digit2 n1 n2⟩
    else none
  | _ => none

/-- Days from the civil epoch 1970-01-01 for a year/month/day triple with
month in 1..12 (day may be out of range; it enters linearly, matching the
calendar component's day normalisation). -/
def daysFromCivil (y m d : Int) : Int :=
  let yAdj := if m ≤ 2 then y - 1 else y
  let era := yAdj.fdiv 400
  let yoe := yAdj - era * 400
  let mp := (m + 9).emod 12
  let doy := (153 * mp + 2).fdiv 5 + d - 1
  let doe := yoe * 365 + yoe.fdiv 4 - yoe.fdiv 100 + doy
  era * 146097 + doe - 719468

/-- Minutes from the epoch for a parsed wall-clock tuple, normalising
out-of-range months the way the calendar datetime does. -/
def dtMinutes (f : DTFields) : Int :=
  let m0 : Int := (f.mo : Int) - 1
  let y : Int := (f.y : Int) + m0.fdiv 12
  let m : Int := m0.emod 12 + 1
  (daysFromCivil y m (f.d : Int)) * 1440 + (f.hh : Int) * 60 + (f.mm : Int)

/-- `calIDateTime.nativeTime` (PRTime, microseconds from the epoch) for a
parsed wall-clock tuple. -/
def dtNativeUs (f : DTFields) : Int := dtMinutes f * 60000000

/-- Result of api.js `makeTimedRange`: `invalid` models the `null` return
on a parse failure, `rangeErr` the `{error}` object returned when the end
does not come after the start, and `ok` the `{start, end}` range. -/
inductive TimedRange where
  | invalid : TimedRange
  | rangeErr (msg : String) : TimedRange
  | ok (s e : DTFields) : TimedRange
deriving DecidableEq, Repr

/-- api.js `makeTimedRange(startStr, endStr)`. -/
def makeTimedRange (startStr endStr : Str) : TimedRange :=
  match parseDateTimeLocal startStr, parseDateTimeLocal endStr with
  | some s, some e =>
    if dtMinutes e ≤ dtMinutes s then .rangeErr "end must be after start" else .ok s e
  | _, _ => .invalid

/-- Whether `makeTimedRange` produced a usable range. -/
def TimedRange.isOk : TimedRange → Bool
  | .ok _ _ => true
  | _ => false

/-! ### Tagging and the idempotency fingerprint -/

/-- api.js `shortTagForEvent(args)`: a compact tag derived from the
schedule.  All-day events use the date's digits; timed events use
date + start/end times; otherwise a bare "mcp". -/
def shortTagForEvent (a : Args) : Str :=
  if truthyB a.allDay && truthy a.date then
    str "mcp:" ++ (getS a.date).filter (fun c => !(c == '-'))
  else if !truthyB a.allDay && truthy a.start && truthy a.endStr then
    let s := (getS a.start).filter (fun c => !(c == '-' || c == ':' || c == 'T' || isWs c))
    let e := (getS a.endStr).filter (fun c => !(c == '-' || c == ':' || c == 'T' || isWs c))
    str "mcp:" ++ s.take 8 ++ '-' :: (s.drop 8).take 4 ++ '-' :: (e.drop 8).take 4
  else str "mcp"

/-- api.js `idempotencyKey(args)`: calendar + time/date + tag, and for
all-day events also the title. -/
def idempotencyKey (a : Args) : Str :=
  let calKey :=
    if truthy a.calendarId then getS a.calendarId
    else if truthy a.calendarName then getS a.calendarName
    else []
  let tag := if truthy a.mcpTag then trimL (getS a.mcpTag) else shortTagForEvent a
  if truthyB a.allDay then
    calKey ++ '|' :: getS a.date ++ '|' :: tag ++ '|' :: getS a.title
  else
    calKey ++ '|' :: (getS a.start ++ '-' :: getS a.endStr) ++ '|' :: tag

/-- The tag computed at the top of api.js `syncAndCreateCalendarEvent`:
a caller-supplied `mcpTag` (trimmed) or the generated short tag. -/
def tagFor (a : Args) : Str :=
  if truthy a.mcpTag then trimL (getS a.mcpTag) else shortTagForEvent a

/-- `Object.assign({}, args, {mcpTag: tag, title: withTagAtEnd(args.title, tag)})`. -/
def argsWithTag (a : Args) : Args :=
  { a with mcpTag := some (tagFor a), title := some (withTagAtEnd (getS a.title) (tagFor a)) }

/-- The idempotency fingerprint actually used by
`syncAndCreateCalendarEvent`: the key of the tag-augmented arguments. -/
def createKey (a : Args) : Str := idempotencyKey (argsWithTag a)

/-! ### Idempotency cache and workflow-job registry -/

/-- The payload stored in an idempotency cache entry: either the pending
marker `{pending: true, workflowJobId}` written before the workflow body
runs, or the final result object written on completion (its four result
sub-objects are not inspected by any claim and are not modelled). -/
inductive IdemPayload where
  | pendingWf (workflowJobId : Str) : IdemPayload
  | completed : IdemPayload
deriving DecidableEq, Repr

/-- A `_idempotency` map entry `{ts, created}`. -/
structure IdemEntry where
  ts : Nat
  created : IdemPayload
deriving DecidableEq, Repr

/-- The `_idempotency` Map, as a partial function from fingerprints. -/
def IdemMap := Str → Option IdemEntry

/-- `IDEMPOTENCY_TTL_MS = 6 * 60 * 60 * 1000`. -/
def IDEMPOTENCY_TTL_MS : Nat := 6 * 60 * 60 * 1000

/-- api.js `cleanupIdempotency()`: purge entries with a falsy timestamp or
whose age strictly exceeds the TTL. -/
def cleanupIdempotency (now : Nat) (m : IdemMap) : IdemMap := fun k =>
  match m k with
  | some v => if v.ts = 0 ∨ IDEMPOTENCY_TTL_MS < now - v.ts then none else some v
  | none => none

/-- A `_workflowJobs` record (the `meta` object is reduced to the
idempotency fingerprint recorded in it). -/
structure WorkflowJob where
  jobId : Str
  status : String
  step : String
  createdAtMs : Nat
  updatedAtMs : Nat
  idemKey : Str
deriving DecidableEq, Repr

/-- api.js `newWorkflowJobId()`: "wfjob-" + Date.now() + "-" + seq. -/
def newWorkflowJobId (now seq : Nat) : Str :=
  str "wfjob-" ++ Nat.toDigits 10 now ++ '-' :: Nat.toDigits 10 seq

/-- The orchestrator state touched by the create workflow: the idempotency
cache, the workflow-job table (as an insertion-ordered list; ids are fresh)
and the `_workflowSeq` counter. -/
structure ServerState where
  idem : IdemMap
  wfJobs : List WorkflowJob
  wfSeq : Nat

/-- The empty state at server start. -/
def ServerState.initial : ServerState := ⟨fun _ => none, [], 0⟩

/-! ### syncAndCreateCalendarEvent — synchronous part -/

/-- The synchronous response of `syncAndCreateCalendarEvent`: a validation
error, the duplicate-suppression response (`alreadyCreated: true` with the
cached `created` payload), or the workflow-started response
(`pending: true` with the new workflow id). -/
inductive CreateResp where
  | errResp (msg : String) : CreateResp
  | dup (key : Str) (created : IdemPayload) : CreateResp
  | started (workflowJobId : Str) (key : Str) : CreateResp
deriving DecidableEq, Repr

/-- The synchronous part of api.js `syncAndCreateCalendarEvent`: validate
`tbsyncUser`, clean the idempotency cache, compute the fingerprint of the
tag-augmented arguments, return the cached payload on a hit, and on a miss
register a new running workflow job (step "start") and store the
`{pending: true, workflowJobId}` idempotency entry before returning — all
before the asynchronous body runs a single step. -/
def syncAndCreateCalendarEventSync (now : Nat) (st : ServerState) (a : Args) :
    CreateResp × ServerState :=
  if truthy a.tbsyncUser = false then
    (.errResp "Missing required field: tbsyncUser (email)", st)
  else
    match cleanupIdempotency now st.idem (createKey a) with
    | some seen =>
      (.dup (createKey a) seen.created, { st with idem := cleanupIdempotency now st.idem })
    | none =>
      (.started (newWorkflowJobId now (st.wfSeq + 1)) (createKey a),
       ⟨fun k => if k = createKey a
           then some ⟨now, .pendingWf (newWorkflowJobId now (st.wfSeq + 1))⟩
           else cleanupIdempotency now st.idem k,
        st.wfJobs ++ [⟨newWorkflowJobId now (st.wfSeq + 1), "running", "start", now, now,
          createKey a⟩],
        st.wfSeq + 1⟩)

/-! ### syncAndCreateCalendarEvent — asynchronous body

The body awaits four external calls in order: the pre-sync trigger, the
local create, and two post-sync triggers.  `tbsyncSyncAccountByUser` either
throws (e.g. TbSync is not installed) or returns a payload that is an
`{error: ...}` object when no (or more than one) account matches the user —
the code does not inspect that payload.  `createCalendarEvent` likewise
either throws or returns a payload (possibly an error object).  Each branch
below records the values assigned to `job.step`, in order, together with
the terminal status and error. -/

/-- The value returned (not thrown) by `tbsyncSyncAccountByUser` or
`createCalendarEvent`: a success object or an `{error: msg}` object. -/
inductive SyncCallResult where
  | ok : SyncCallResult
  | errPayload (msg : String) : SyncCallResult
deriving DecidableEq, Repr

/-- The outcome of awaiting an external async call. -/
inductive CallOutcome where
  | throws (msg : String) : CallOutcome
  | value (v : SyncCallResult) : CallOutcome
deriving DecidableEq, Repr

/-- Outcomes of the four awaited calls of the create workflow body. -/
structure WfEnv where
  preSync : CallOutcome
  createCall : CallOutcome
  postSync : CallOutcome
  postSync2 : CallOutcome
deriving DecidableEq, Repr

/-- The observable result of one run of the create workflow body:
the ordered `job.step` assignments made by the body, the terminal status,
the recorded error (the `e.toString()` of the exception that was caught,
stored without wrapping), and whether `createCalendarEvent` was invoked. -/
structure WfRun where
  stepTrace : List String
  status : String
  error : Option String
  createAttempted : Bool
deriving DecidableEq, Repr

/-- The asynchronous body of `syncAndCreateCalendarEvent` (api.js lines
1484-1515): step "preSync", await the pre-sync; step "create", await the
create; step "postSync", await both post-syncs; then done — any thrown
exception jumps to the catch, which sets status and step to "error". -/
def runCreateWorkflowBody (env : WfEnv) : WfRun :=
  match env.preSync with
  | .throws m => ⟨["preSync", "error"], "error", some m, false⟩
  | .value _ =>
    match env.createCall with
    | .throws m => ⟨["preSync", "create", "error"], "error", some m, true⟩
    | .value _ =>
      match env.postSync with
      | .throws m => ⟨["preSync", "create", "postSync", "error"], "error", some m, true⟩
      | .value _ =>
        match env.postSync2 with
        | .throws m => ⟨["preSync", "create", "postSync", "error"], "error", some m, true⟩
        | .value _ => ⟨["preSync", "create", "postSync", "done"], "done", none, true⟩

/-- The full sequence of `job.step` values over the workflow's lifetime:
the synchronous part sets "start" before the body runs. -/
def fullStepTrace (env : WfEnv) : List String :=
  "start" :: (runCreateWorkflowBody env).stepTrace

/-! ### Bulk delete: calendars, SQL candidate query, dispatch loop -/

/-- A Thunderbird calendar as seen by `resolveCalendar`. -/
structure Calendar where
  id : Str
  name : Str
  readOnly : Bool
deriving DecidableEq, Repr

/-- api.js `resolveCalendar({calendarName, calendarId})`: match by id when
an id is given, else by name when a name is given, else null. -/
def resolveCalendar (cals : List Calendar) (calendarId calendarName : Option Str) :
    Option Calendar :=
  if truthy calendarId then cals.find? (fun c => c.id == getS calendarId)
  else if truthy calendarName then cals.find? (fun c => c.name == getS calendarName)
  else none

/-- A row of the `cal_events` table of calendar-data/local.sqlite. -/
structure CalRow where
  id : Str
  cal_id : Str
  event_start : Int
  title : Str
deriving DecidableEq, Repr

/-- The LIKE patterns built by the query loop: each keyword is lowercased
and trimmed, empty keywords are skipped (api.js lines 287-294). -/
def sqlKwPatterns (kws : List Str) : List Str :=
  (kws.map (fun k => trimL (lowerL k))).filter (fun k => !k.isEmpty)

/-- SQLite LIKE with its default (no ESCAPE) semantics, as evaluated by the
candidate query: `%` matches any character sequence (tried against every
suffix of the text), `_` matches exactly one character, and ordinary
characters compare ASCII-case-insensitively.  SQLite folds only ASCII case
in LIKE, and its `lower()` likewise folds only ASCII — which is exactly
`Char.toLower`.  First argument is the pattern, second the text. -/
def likeMatch : Str → Str → Bool
  | [], t => t.isEmpty
  | p :: ps, t =>
    if p = '%' then t.tails.any (fun suf => likeMatch ps suf)
    else
      match t with
      | [] => false
      | c :: ts =>
        if p = '_' then likeMatch ps ts
        else p.toLower == c.toLower && likeMatch ps ts

/-- Whether a keyword contains no LIKE wildcard.  The code interpolates
each keyword into the `%kw%` pattern with no ESCAPE clause, so `%` and `_`
inside the keyword stay active wildcards. -/
def likeWildcardFree (k : Str) : Bool := k.all (fun c => !(c == '%' || c == '_'))

/-- The WHERE clause of the candidate query:
`cal_id = :cal_id AND event_start >= :start_us AND event_start < :end_us`
plus one `lower(title) LIKE :kw` conjunct (pattern `%kw%`, LIKE wildcard
semantics) per non-empty keyword. -/
def sqlRowMatches (calId : Str) (sUs eUs : Int) (kws : List Str) (r : CalRow) : Bool :=
  r.cal_id == calId && (decide (sUs ≤ r.event_start) && decide (r.event_start < eUs)) &&
    (sqlKwPatterns kws).all (fun k => likeMatch ('%' :: k ++ ['%']) (lowerL r.title))

/-- The `{id, title}` candidate list produced by
`SELECT id, title FROM cal_events WHERE ...` in `syncAndDeleteEventsBySql`. -/
def sqlCandidates (db : List CalRow) (calId : Str) (sUs eUs : Int) (kws : List Str) :
    List (Str × Str) :=
  (db.filter (sqlRowMatches calId sUs eUs kws)).map (fun r => (r.id, r.title))

/-- The synchronous response of `syncAndDeleteEventsBySql`: an error object
or the `{pending: true, workflowJobId}` acceptance. -/
inductive BulkResp where
  | err (msg : String) : BulkResp
  | started (workflowJobId : Str) : BulkResp
deriving DecidableEq, Repr

/-- Whether the bulk request was rejected before a workflow was created. -/
def BulkResp.isErr : BulkResp → Bool
  | .err _ => true
  | .started _ => false

/-- The synchronous part of api.js `syncAndDeleteEventsBySql` (lines
234-262): validate `tbsyncUser` and the presence of `start`/`end`, resolve
the calendar, reject read-only targets, validate the time range, and only
then register a running workflow job (step "querySql") and return
`pending: true`.  Error messages elide the interpolated argument values. -/
def syncAndDeleteEventsBySqlSync (now : Nat) (st : ServerState) (cals : List Calendar)
    (a : Args) : BulkResp × ServerState :=
  if truthy a.tbsyncUser = false then
    (.err "Missing required field: tbsyncUser", st)
  else if truthy a.start = false ∨ truthy a.endStr = false then
    (.err "Missing required fields: start, end (YYYY-MM-DDTHH:MM)", st)
  else
    match resolveCalendar cals a.calendarId a.calendarName with
    | none => (.err "Calendar not found", st)
    | some target =>
      if target.readOnly then (.err "Calendar is read-only", st)
      else
        match makeTimedRange (getS a.start) (getS a.endStr) with
        | .invalid => (.err "Invalid datetime format (expected YYYY-MM-DDTHH:MM)", st)
        | .rangeErr m => (.err m, st)
        | .ok _ _ =>
          (.started (newWorkflowJobId now (st.wfSeq + 1)),
           { st with
               wfJobs := st.wfJobs ++
                 [⟨newWorkflowJobId now (st.wfSeq + 1), "running", "querySql", now, now, []⟩],
               wfSeq := st.wfSeq + 1 })

/-- The outcome of the candidate query phase of the bulk-delete body: a
thrown exception (opening or querying the storage database failed) or the
candidate rows. -/
inductive QueryOutcome where
  | throws (msg : String) : QueryOutcome
  | rows (rs : List (Str × Str)) : QueryOutcome
deriving DecidableEq, Repr

/-- The per-candidate dispatch loop of `syncAndDeleteEventsBySql` (lines
307-319): each candidate is dispatched inside its own try/catch, a failure
increments `deleteErrors` and the loop continues with the next candidate.
`ok i` tells whether dispatching candidate `i` succeeded.  Returns
`(deleteTriggered, deleteErrors)`. -/
def dispatchLoop (ok : Nat → Bool) : List (Str × Str) → Nat → Nat × Nat
  | [], _ => (0, 0)
  | _ :: rest, i =>
    let r := dispatchLoop ok rest (i + 1)
    if ok i then (r.1 + 1, r.2) else (r.1, r.2 + 1)

/-- The terminal record of the bulk-delete body. -/
structure SqlBodyRun where
  status : String
  step : String
  candidateCount : Nat
  deleteTriggered : Nat
  deleteErrors : Nat
  error : Option String
deriving DecidableEq, Repr

/-- The asynchronous body of `syncAndDeleteEventsBySql` (lines 264-338): if
the query phase throws, the catch sets status/step to "error"; otherwise
every candidate is dispatched through the isolated loop and the workflow
terminates "done".  The two post-sync triggers are invoked inside
`try {...} catch {}` and are not awaited, so their failure is swallowed and
cannot change the terminal status. -/
def runSqlDeleteBody (q : QueryOutcome) (ok : Nat → Bool) : SqlBodyRun :=
  match q with
  | .throws m => ⟨"error", "error", 0, 0, 0, some m⟩
  | .rows rs =>
    let p := dispatchLoop ok rs 0
    ⟨"done", "done", rs.length, p.1, p.2, none⟩

/-! ### Legacy enumeration-based bulk delete (tbsyncDeleteEasEventsByTitleRange)

The item loop (lines 651-660) walks the folder's items; an item matches
when its title contains all keywords and its start time (converted to a JS
date; `none` when the conversion fails) lies in `[startJs, endJs)`.
`matched` is incremented before the delete is attempted; the delete is
awaited inside the per-FOLDER try/catch, so a throwing delete records one
error and abandons the remaining items of that folder. -/

/-- A native calendar item as seen by the enumeration loop. -/
structure NativeItem where
  title : Str
  startMs : Option Int
deriving DecidableEq, Repr

/-- api.js `clampDateTimeToRange`: false when the start time cannot be
converted, otherwise the half-open interval test `startJs <= t < endJs`. -/
def clampToRange (startMs : Option Int) (sJs eJs : Int) : Bool :=
  match startMs with
  | none => false
  | some t => decide (sJs ≤ t) && decide (t < eJs)

/-- Whether an item is matched by the enumeration loop's filter. -/
def titleRangeMatches (kws : List Str) (sJs eJs : Int) (it : NativeItem) : Bool :=
  containsAllL it.title kws && clampToRange it.startMs sJs eJs

/-- The enumeration loop over one folder's items; `delOk i` tells whether
deleting item `i` succeeded.  Returns `(matched, deleted, errorCount)`; on
the first failing delete the remaining items of the folder are skipped. -/
def titleRangeScan (kws : List Str) (sJs eJs : Int) (delOk : Nat → Bool) :
    List NativeItem → Nat → Nat × Nat × Nat
  | [], _ => (0, 0, 0)
  | it :: rest, i =>
    if titleRangeMatches kws sJs eJs it then
      if delOk i then
        let r := titleRangeScan kws sJs eJs delOk rest (i + 1)
        (r.1 + 1, r.2.1 + 1, r.2.2)
      else (1, 0, 1)
    else titleRangeScan kws sJs eJs delOk rest (i + 1)

/-! ### Derived predicates and concrete fixtures used by the theorems -/

/-- The spec-side matching predicate for a stored event row: right
calendar, start time in the half-open window, and the title contains every
required substring case-insensitively (as implemented by containsAll). -/
def specRowMatches (calId : Str) (sUs eUs : Int) (kws : List Str) (r : CalRow) : Bool :=
  r.cal_id == calId && (decide (sUs ≤ r.event_start) && decide (r.event_start < eUs)) &&
    containsAllL r.title kws

/-- The all-day "Dentist" create request of the spec scenario. -/
def c1Args : Args :=
  { tbsyncUser := some ['u'], calendarName := some ['C'],
    title := some (str "Dentist"), allDay := some true,
    date := some (str "2026-02-04") }

/-- A create request used against a stale idempotency cache. -/
def c6Args : Args :=
  { tbsyncUser := some ['u'], calendarName := some ['C'],
    title := some (str "Dentist"), allDay := some true,
    date := some (str "2026-02-04") }

/-- A state whose every idempotency entry carries timestamp 1 (stale once
more than the TTL has elapsed). -/
def c6Stale : ServerState := ⟨fun _ => some ⟨1, .completed⟩, [], 0⟩

/-- Two all-day requests identical except for the title (used to show the
title participates in the all-day fingerprint). -/
def c9AllDayA : Args :=
  { tbsyncUser := some ['u'], calendarName := some ['C'], allDay := some true,
    date := some (str "2026-02-04"), title := some ['A'] }

def c9AllDayB : Args :=
  { tbsyncUser := some ['u'], calendarName := some ['C'], allDay := some true,
    date := some (str "2026-02-04"), title := some ['B'] }

/-- Two timed requests identical except for the title. -/
def c9Args1 : Args :=
  { tbsyncUser := some ['u'], calendarId := some ['c'], allDay := some false,
    start := some (str "2026-02-04T06:00"), endStr := some (str "2026-02-04T07:00"),
    title := some ['X'] }

def c9Args2 : Args :=
  { tbsyncUser := some ['u'], calendarId := some ['c'], allDay := some false,
    start := some (str "2026-02-04T06:00"), endStr := some (str "2026-02-04T07:00"),
    title := some ['Y'] }

/-- A concrete bulk-delete request with an empty required-substring list
(valid user, calendar and one-week window). -/
def c3Args : Args :=
  { tbsyncUser := some ['u'], calendarId := some ['c'],
    start := some (str "2026-02-02T00:00"), endStr := some (str "2026-02-09T00:00"),
    titleMustContainAll := some [] }

/-- A concrete stored-event table: two events of calendar "c" inside the
window of `c3Args`, with unrelated titles. -/
def c3Db : List CalRow :=
  [⟨['1'], ['c'], dtNativeUs ⟨2026, 2, 3, 0, 0⟩, str "Standup"⟩,
   ⟨['2'], ['c'], dtNativeUs ⟨2026, 2, 4, 0, 0⟩, str "Dentist"⟩]

/-- A stored-event row whose title contains "50" but not the literal
string "50%" (exhibits the LIKE-wildcard divergence for keyword "50%"). -/
def c2Row50 : CalRow := ⟨['1'], ['c'], 5, str "50 percent off"⟩

/-- A bulk-delete request whose start string is malformed. -/
def c8Args : Args :=
  { tbsyncUser := some ['u'], calendarId := some ['c'],
    start := some (str "2026-13"), endStr := some (str "2026-02-09T00:00") }

/-! ## Helper lemmas -/

theorem dropWhile_head_false (p : Char → Bool) :
    ∀ (l : Str) (c : Char) (cs : Str), l.dropWhile p = c :: cs → p c = false := by
  intro l
  induction l with
  | nil => intro c cs h; cases h
  | cons a t ih =>
    intro c cs h
    rw [List.dropWhile_cons] at h
    by_cases ha : p a = true
    · rw [if_pos ha] at h
      exact ih c cs h
    · rw [if_neg ha] at h
      cases h
      exact Bool.not_eq_true _ |>.mp ha

theorem dropWhile_eq_self (p : Char → Bool) (c : Char) (cs : Str)
    (hc : p c = false) : (c :: cs).dropWhile p = c :: cs := by
  rw [List.dropWhile_cons, hc]
  simp

/-- A string whose first and last characters are not whitespace is fixed by
`trimL`. -/
theorem trimL_eq_self (c d : Char) (cs ds : Str) (s : Str)
    (hs : s = c :: cs) (hrev : s.reverse = d :: ds)
    (hc : isWs c = false) (hd : isWs d = false) : trimL s = s := by
  unfold trimL
  rw [hs, dropWhile_eq_self isWs c cs hc, ← hs, hrev,
    dropWhile_eq_self isWs d ds hd, ← hrev, List.reverse_reverse]

/-- The first character of a trimmed string is not whitespace. -/
theorem trimL_head_not_ws (s : Str) (c : Char) (cs : Str)
    (h : trimL s = c :: cs) : isWs c = false := by
  unfold trimL at h
  have hsuff : ((s.dropWhile isWs).reverse.dropWhile isWs) <:+ (s.dropWhile isWs).reverse :=
    List.dropWhile_suffix isWs
  have hrev : ((s.dropWhile isWs).reverse.dropWhile isWs) = (c :: cs).reverse := by
    have := congrArg List.reverse h
    rwa [List.reverse_reverse] at this
  rw [hrev] at hsuff
  have hpre : (c :: cs) <+: s.dropWhile isWs := List.reverse_suffix.mp hsuff
  obtain ⟨r, hr⟩ := hpre
  exact dropWhile_head_false isWs s c (cs ++ r) (by rw [← hr]; simp)

/-- The last character of a trimmed string is not whitespace. -/
theorem trimL_last_not_ws (s : Str) (d : Char) (ds : Str)
    (h : (trimL s).reverse = d :: ds) : isWs d = false := by
  unfold trimL at h
  rw [List.reverse_reverse] at h
  exact dropWhile_head_false isWs _ d ds h

/-- `trimL` is idempotent. -/
theorem trimL_idem (s : Str) : trimL (trimL s) = trimL s := by
  rcases hcase : trimL s with _ | ⟨c, cs⟩
  · rfl
  · rcases hrev : (trimL s).reverse with _ | ⟨d, ds⟩
    · rw [List.reverse_eq_nil_iff] at hrev
      rw [hrev] at hcase
      cases hcase
    · rw [← hcase]
      exact trimL_eq_self c d cs ds (trimL s) hcase hrev
        (trimL_head_not_ws s c cs hcase) (trimL_last_not_ws s d ds hrev)

theorem isPrefixOfL_append (l m : Str) : isPrefixOfL l (l ++ m) = true := by
  induction l with
  | nil => rfl
  | cons c cs ih => simp [isPrefixOfL, ih]

theorem endsWithL_append (x p : Str) : endsWithL (x ++ p) p = true := by
  unfold endsWithL
  rw [List.reverse_append]
  exact isPrefixOfL_append p.reverse x.reverse

/-- The append branch of `withTagAtEnd` produces a string that is fixed by
`trimL` as soon as the trimmed base is non-empty. -/
theorem trimL_base_append_fix (c : Char) (cs t : Str) (hc : isWs c = false) :
    trimL ((c :: cs) ++ ' ' :: '(' :: t ++ [')']) = (c :: cs) ++ ' ' :: '(' :: t ++ [')'] := by
  apply trimL_eq_self c ')' (cs ++ ' ' :: '(' :: t ++ [')'])
      ((c :: cs) ++ ' ' :: '(' :: t).reverse
  · rfl
  · have h1 : ((c :: cs) ++ ' ' :: '(' :: t ++ [')']) =
        ((c :: cs) ++ ' ' :: '(' :: t) ++ [')'] := by simp
    rw [h1, List.reverse_append]
    rfl
  · exact hc
  · rfl

/-- Unfolded form of `withTagAtEnd`. -/
theorem withTagAtEnd_def (title tag : Str) :
    withTagAtEnd title tag =
      if (trimL tag).isEmpty then trimL title
      else if endsWithL (trimL title) ('(' :: trimL tag ++ [')']) then trimL title
      else trimL title ++ ' ' :: '(' :: trimL tag ++ [')'] := rfl

/-! ## Claim C10 -/

/-- C10 (counterexample): `withTagAtEnd` is not idempotent for every title
and non-empty tag.  For the empty title and tag "x" the first application
yields " (x)" with a leading space (the base is empty, so the appended
space survives), and the second application trims that space away, giving
"(x)" instead. -/
theorem withTagAtEnd_idem_cex :
    withTagAtEnd (withTagAtEnd [] ['x']) ['x'] ≠ withTagAtEnd [] ['x'] := by decide

/-- C10 (amended): for every title whose trimmed form is non-empty and
every tag, applying `withTagAtEnd` twice with the same tag yields the same
string as applying it once; a title never accumulates a second copy of the
same trailing "(tag)" suffix.  (Only whitespace-only titles escape this,
via the leading-space artefact of the counterexample.) -/
theorem withTagAtEnd_idem_amended (title tag : Str) (h : trimL title ≠ []) :
    withTagAtEnd (withTagAtEnd title tag) tag = withTagAtEnd title tag := by
  rcases hbase : trimL title with _ | ⟨c, cs⟩
  · exact absurd hbase h
  · have hc : isWs c = false := trimL_head_not_ws title c cs hbase
    rw [withTagAtEnd_def title tag]
    by_cases ht : (trimL tag).isEmpty = true
    · rw [if_pos ht, withTagAtEnd_def, if_pos ht, trimL_idem]
    · rw [if_neg ht]
      by_cases he : endsWithL (trimL title) ('(' :: trimL tag ++ [')']) = true
      · rw [if_pos he, withTagAtEnd_def, trimL_idem, if_neg ht, if_pos he]
      · rw [if_neg he, withTagAtEnd_def, hbase,
          trimL_base_append_fix c cs (trimL tag) hc, if_neg ht, if_pos]
        have hsplit : (c :: cs) ++ ' ' :: '(' :: trimL tag ++ [')'] =
            ((c :: cs) ++ [' ']) ++ ('(' :: trimL tag ++ [')']) := by simp
        rw [hsplit]
        exact endsWithL_append _ _

/-- C10 witness: the amended idempotence at the concrete title "Dentist"
and tag "x". -/
theorem withTagAtEnd_idem_amended_witness :
    withTagAtEnd (withTagAtEnd ['D', 'e', 'n', 't', 'i', 's', 't'] ['x']) ['x'] =
      withTagAtEnd ['D', 'e', 'n', 't', 'i', 's', 't'] ['x'] :=
  withTagAtEnd_idem_amended ['D', 'e', 'n', 't', 'i', 's', 't'] ['x'] (by decide)

/-! ## Idempotency-cache behaviour -/

theorem cleanup_none (now : Nat) (m : IdemMap) (k : Str) (h : m k = none) :
    cleanupIdempotency now m k = none := by
  unfold cleanupIdempotency
  rw [h]

theorem cleanup_keep (now : Nat) (m : IdemMap) (k : Str) (ts : Nat) (p : IdemPayload)
    (h : m k = some ⟨ts, p⟩) (h0 : ts ≠ 0) (hT : now - ts ≤ IDEMPOTENCY_TTL_MS) :
    cleanupIdempotency now m k = some ⟨ts, p⟩ := by
  unfold cleanupIdempotency
  rw [h]
  show (if ts = 0 ∨ IDEMPOTENCY_TTL_MS < now - ts then none else some (⟨ts, p⟩ : IdemEntry)) =
    some ⟨ts, p⟩
  rw [if_neg]
  rintro (h1 | h2)
  · exact h0 h1
  · omega

theorem cleanup_purge (now : Nat) (m : IdemMap) (k : Str) (ts : Nat) (p : IdemPayload)
    (h : m k = some ⟨ts, p⟩) (hT : IDEMPOTENCY_TTL_MS < now - ts) :
    cleanupIdempotency now m k = none := by
  unfold cleanupIdempotency
  rw [h]
  show (if ts = 0 ∨ IDEMPOTENCY_TTL_MS < now - ts then none else some (⟨ts, p⟩ : IdemEntry)) =
    none
  rw [if_pos (Or.inr hT)]

/-- Shape of a `syncAndCreateCalendarEvent` call on a cache miss: a new
workflow job is appended, the sequence counter advances, and the pending
idempotency entry is written under the fingerprint. -/
theorem createSync_miss (now : Nat) (st : ServerState) (a : Args)
    (hu : truthy a.tbsyncUser = true)
    (hk : cleanupIdempotency now st.idem (createKey a) = none) :
    syncAndCreateCalendarEventSync now st a =
      (.started (newWorkflowJobId now (st.wfSeq + 1)) (createKey a),
       ⟨fun k => if k = createKey a
           then some ⟨now, .pendingWf (newWorkflowJobId now (st.wfSeq + 1))⟩
           else cleanupIdempotency now st.idem k,
        st.wfJobs ++ [⟨newWorkflowJobId now (st.wfSeq + 1), "running", "start", now, now,
          createKey a⟩],
        st.wfSeq + 1⟩) := by
  unfold syncAndCreateCalendarEventSync
  rw [hu, if_neg (by simp), hk]

/-- Shape of a `syncAndCreateCalendarEvent` call on a cache hit: the cached
payload is returned with `alreadyCreated: true`; no workflow is registered
and the sequence counter is untouched. -/
theorem createSync_hit (now : Nat) (st : ServerState) (a : Args) (en : IdemEntry)
    (hu : truthy a.tbsyncUser = true)
    (hk : cleanupIdempotency now st.idem (createKey a) = some en) :
    syncAndCreateCalendarEventSync now st a =
      (.dup (createKey a) en.created, { st with idem := cleanupIdempotency now st.idem }) := by
  unfold syncAndCreateCalendarEventSync
  rw [hu, if_neg (by simp), hk]

/-! ## Claim C1 -/

/-- C1: for every valid `syncAndCreateCalendarEvent` request whose
fingerprint has not been seen before, exactly one workflow job is created
and registered (appended to the table, advancing the sequence counter),
and the `{pending: true, workflowJobId}` idempotency entry is stored by the
synchronous part, i.e. before any workflow step runs; an identical request
submitted before the first workflow completes (the pending entry is still
cached and within the TTL) does not start a second workflow — the table
and counter are unchanged — and instead returns `alreadyCreated = true`
with a payload referencing the first workflow's id. -/
theorem create_idempotent_single_workflow
    (now now2 : Nat) (st : ServerState) (a : Args)
    (hu : truthy a.tbsyncUser = true)
    (hnow : 0 < now)
    (hfresh : st.idem (createKey a) = none)
    (httl : now2 - now ≤ IDEMPOTENCY_TTL_MS) :
    (syncAndCreateCalendarEventSync now st a).1 =
        .started (newWorkflowJobId now (st.wfSeq + 1)) (createKey a) ∧
    (syncAndCreateCalendarEventSync now st a).2.wfJobs =
        st.wfJobs ++ [⟨newWorkflowJobId now (st.wfSeq + 1), "running", "start", now, now,
          createKey a⟩] ∧
    (syncAndCreateCalendarEventSync now st a).2.idem (createKey a) =
        some ⟨now, .pendingWf (newWorkflowJobId now (st.wfSeq + 1))⟩ ∧
    (syncAndCreateCalendarEventSync now2 (syncAndCreateCalendarEventSync now st a).2 a).1 =
        .dup (createKey a) (.pendingWf (newWorkflowJobId now (st.wfSeq + 1))) ∧
    (syncAndCreateCalendarEventSync now2 (syncAndCreateCalendarEventSync now st a).2 a).2.wfJobs =
        (syncAndCreateCalendarEventSync now st a).2.wfJobs ∧
    (syncAndCreateCalendarEventSync now2 (syncAndCreateCalendarEventSync now st a).2 a).2.wfSeq =
        (syncAndCreateCalendarEventSync now st a).2.wfSeq := by
  have h1 := createSync_miss now st a hu (cleanup_none now st.idem _ hfresh)
  rw [h1]
  refine ⟨rfl, rfl, by simp, ?_, ?_, ?_⟩ <;>
  · have hidem : ((fun k => if k = createKey a
          then some (⟨now, .pendingWf (newWorkflowJobId now (st.wfSeq + 1))⟩ : IdemEntry)
          else cleanupIdempotency now st.idem k) : IdemMap) (createKey a) =
        some ⟨now, .pendingWf (newWorkflowJobId now (st.wfSeq + 1))⟩ := by simp
    have h2 := createSync_hit now2
        ⟨fun k => if k = createKey a
            then some ⟨now, .pendingWf (newWorkflowJobId now (st.wfSeq + 1))⟩
            else cleanupIdempotency now st.idem k,
         st.wfJobs ++ [⟨newWorkflowJobId now (st.wfSeq + 1), "running", "start", now, now,
           createKey a⟩],
         st.wfSeq + 1⟩ a
        ⟨now, .pendingWf (newWorkflowJobId now (st.wfSeq + 1))⟩ hu
        (cleanup_keep now2 _ _ now _ hidem (by omega) httl)
    rw [h2]

/-- C1 witness: the all-day "Dentist" scenario from the spec, on the empty
initial state; the second identical call returns the duplicate response
referencing the first workflow's id. -/
theorem create_idempotent_single_workflow_witness :
    (syncAndCreateCalendarEventSync 9
        (syncAndCreateCalendarEventSync 5 ServerState.initial c1Args).2 c1Args).1 =
      .dup (createKey c1Args) (.pendingWf (newWorkflowJobId 5 1)) :=
  (create_idempotent_single_workflow 5 9 ServerState.initial c1Args rfl (by decide) rfl
    (by decide)).2.2.2.1

/-! ## Claim C6 -/

/-- C6: once strictly more time than the TTL has elapsed since an
idempotency entry's timestamp, the next `syncAndCreateCalendarEvent` call
with the same fingerprint treats the entry as absent and purges it: the
stale payload is not returned, a fresh workflow is registered instead, and
the fingerprint is re-bound to the new pending entry. -/
theorem idempotency_ttl_expiry (now : Nat) (st : ServerState) (a : Args)
    (ts : Nat) (p : IdemPayload)
    (hu : truthy a.tbsyncUser = true)
    (hstale : st.idem (createKey a) = some ⟨ts, p⟩)
    (hT : IDEMPOTENCY_TTL_MS < now - ts) :
    (syncAndCreateCalendarEventSync now st a).1 =
        .started (newWorkflowJobId now (st.wfSeq + 1)) (createKey a) ∧
    (syncAndCreateCalendarEventSync now st a).2.wfJobs =
        st.wfJobs ++ [⟨newWorkflowJobId now (st.wfSeq + 1), "running", "start", now, now,
          createKey a⟩] ∧
    (syncAndCreateCalendarEventSync now st a).2.idem (createKey a) =
        some ⟨now, .pendingWf (newWorkflowJobId now (st.wfSeq + 1))⟩ := by
  have h1 := createSync_miss now st a hu (cleanup_purge now st.idem _ ts p hstale hT)
  rw [h1]
  exact ⟨rfl, rfl, by simp⟩

/-- C6 witness: a state whose every entry is stale (timestamp 1) at a call
time beyond the TTL starts a fresh workflow instead of returning the stale
payload. -/
theorem idempotency_ttl_expiry_witness :
    (syncAndCreateCalendarEventSync 30000000 c6Stale c6Args).1 =
      .started (newWorkflowJobId 30000000 1) (createKey c6Args) :=
  (idempotency_ttl_expiry 30000000 c6Stale c6Args 1 .completed rfl rfl (by decide)).1

/-! ## Claim C9 -/

/-- For two timed requests without a caller-supplied tag that agree on the
calendar, schedule and date fields, the workflow fingerprint coincides
regardless of their titles or descriptions. -/
theorem createKey_timed_eq (a1 a2 : Args)
    (hAll1 : a1.allDay = some false) (hAll2 : a2.allDay = some false)
    (hTag1 : a1.mcpTag = none) (hTag2 : a2.mcpTag = none)
    (hCid : a1.calendarId = a2.calendarId) (hCname : a1.calendarName = a2.calendarName)
    (hStart : a1.start = a2.start) (hEnd : a1.endStr = a2.endStr)
    (hDate : a1.date = a2.date) :
    createKey a1 = createKey a2 := by
  have htag : tagFor a1 = tagFor a2 := by
    simp [tagFor, hTag1, hTag2, truthy, shortTagForEvent, truthyB, hAll1, hAll2, hStart, hEnd,
      hDate]
  simp [createKey, argsWithTag, idempotencyKey, truthyB, hAll1, hAll2, hCid, hCname, hStart,
    hEnd, hDate, htag, shortTagForEvent]

/-- C9: (1) the idempotency fingerprint of a timed (allDay = false) create
request without a caller-supplied mcpTag does not depend on the title:
requests that agree on calendar, start and end get the same fingerprint;
(2) hence the second of two such requests submitted within the TTL is
suppressed as a duplicate of the first, referencing the first workflow's
id and registering no second workflow; (3) the title does participate in
the fingerprint for all-day requests: two all-day requests differing only
in title have different fingerprints. -/
theorem timed_fingerprint_ignores_title :
    (∀ a1 a2 : Args,
       a1.allDay = some false → a2.allDay = some false →
       a1.mcpTag = none → a2.mcpTag = none →
       a1.calendarId = a2.calendarId → a1.calendarName = a2.calendarName →
       a1.start = a2.start → a1.endStr = a2.endStr → a1.date = a2.date →
       createKey a1 = createKey a2) ∧
    (∀ (now now2 : Nat) (st : ServerState) (a1 a2 : Args),
       a1.allDay = some false → a2.allDay = some false →
       a1.mcpTag = none → a2.mcpTag = none →
       a1.calendarId = a2.calendarId → a1.calendarName = a2.calendarName →
       a1.start = a2.start → a1.endStr = a2.endStr → a1.date = a2.date →
       truthy a1.tbsyncUser = true → truthy a2.tbsyncUser = true →
       0 < now → st.idem (createKey a1) = none → now2 - now ≤ IDEMPOTENCY_TTL_MS →
       (syncAndCreateCalendarEventSync now2
           (syncAndCreateCalendarEventSync now st a1).2 a2).1 =
         .dup (createKey a1) (.pendingWf (newWorkflowJobId now (st.wfSeq + 1))) ∧
       (syncAndCreateCalendarEventSync now2
           (syncAndCreateCalendarEventSync now st a1).2 a2).2.wfJobs =
         (syncAndCreateCalendarEventSync now st a1).2.wfJobs) ∧
    createKey c9AllDayA ≠ createKey c9AllDayB := by
  refine ⟨createKey_timed_eq, ?_, by decide⟩
  intro now now2 st a1 a2 hAll1 hAll2 hTag1 hTag2 hCid hCname hStart hEnd hDate hu1 hu2 hnow
    hfresh httl
  have hkeys : createKey a1 = createKey a2 :=
    createKey_timed_eq a1 a2 hAll1 hAll2 hTag1 hTag2 hCid hCname hStart hEnd hDate
  have h1 := createSync_miss now st a1 hu1 (cleanup_none now st.idem _ hfresh)
  rw [h1]
  have hidem : ((fun k => if k = createKey a1
        then some (⟨now, .pendingWf (newWorkflowJobId now (st.wfSeq + 1))⟩ : IdemEntry)
        else cleanupIdempotency now st.idem k) : IdemMap) (createKey a2) =
      some ⟨now, .pendingWf (newWorkflowJobId now (st.wfSeq + 1))⟩ := by
    rw [← hkeys]
    simp
  have h2 := createSync_hit now2
      ⟨fun k => if k = createKey a1
          then some ⟨now, .pendingWf (newWorkflowJobId now (st.wfSeq + 1))⟩
          else cleanupIdempotency now st.idem k,
       st.wfJobs ++ [⟨newWorkflowJobId now (st.wfSeq + 1), "running", "start", now, now,
         createKey a1⟩],
       st.wfSeq + 1⟩ a2
      ⟨now, .pendingWf (newWorkflowJobId now (st.wfSeq + 1))⟩ hu2
      (cleanup_keep now2 _ _ now _ hidem (by omega) httl)
  rw [h2]
  exact ⟨by rw [hkeys], rfl⟩

/-- C9 witness: two concrete timed requests differing only in title get the
same fingerprint. -/
theorem timed_fingerprint_ignores_title_witness :
    createKey c9Args1 = createKey c9Args2 :=
  timed_fingerprint_ignores_title.1 c9Args1 c9Args2 rfl rfl rfl rfl rfl rfl rfl rfl rfl

/-! ## Claim C2 -/

/-- The per-row keyword conjunction built by the SQL query loop agrees with
the `containsAll` loop used by the enumeration paths. -/
theorem sqlKw_all_eq_containsAllGo (h : Str) :
    ∀ kws : List Str, (sqlKwPatterns kws).all (fun k => containsSeq h k) = containsAllGo h kws := by
  intro kws
  induction kws with
  | nil => rfl
  | cons n rest ih =>
    by_cases hn : (trimL (lowerL n)).isEmpty = true
    · simpa [sqlKwPatterns, containsAllGo, hn] using ih
    · by_cases hcs : containsSeq h (trimL (lowerL n)) = true
      · simpa [sqlKwPatterns, containsAllGo, hn, hcs] using ih
      · simp [sqlKwPatterns, containsAllGo, hn, hcs]

theorem charToNat_ofNat_valid (n : Nat) (h : n.isValidChar) : (Char.ofNat n).toNat = n := by
  unfold Char.ofNat
  rw [dif_pos h]
  unfold Char.ofNatAux Char.toNat
  have hlt : n < 2 ^ 32 := by
    rcases h with h1 | ⟨h1, h2⟩
    · omega
    · omega
  simp [UInt32.toNat, BitVec.toNat_ofNat]

/-- `Char.toLower` (the ASCII case fold) is idempotent. -/
theorem toLower_toLower (c : Char) : (Char.toLower c).toLower = Char.toLower c := by
  unfold Char.toLower
  by_cases h : c.toNat ≥ 65 ∧ c.toNat ≤ 90
  · rw [if_pos h]
    have hv : (c.toNat + 32).isValidChar := by
      left
      omega
    rw [charToNat_ofNat_valid (c.toNat + 32) hv, if_neg (by omega)]
  · rw [if_neg h, if_neg h]

/-- Every character of a lowercased string is fixed by the fold. -/
theorem lowerL_folded (s : Str) (c : Char) (hc : c ∈ lowerL s) : c.toLower = c := by
  unfold lowerL at hc
  obtain ⟨d, _, rfl⟩ := List.mem_map.mp hc
  exact toLower_toLower d

/-- Trimming only removes characters. -/
theorem trimL_mem (s : Str) (c : Char) (hc : c ∈ trimL s) : c ∈ s := by
  unfold trimL at hc
  rw [List.mem_reverse] at hc
  have h1 := (List.dropWhile_suffix isWs).sublist.subset hc
  rw [List.mem_reverse] at h1
  exact (List.dropWhile_suffix isWs).sublist.subset h1

/-- Every effective keyword pattern is a case-folded string. -/
theorem sqlKwPatterns_folded (kws : List Str) (k : Str) (hk : k ∈ sqlKwPatterns kws) :
    ∀ c ∈ k, c.toLower = c := by
  intro c hc
  unfold sqlKwPatterns at hk
  obtain ⟨raw, _, rfl⟩ := List.mem_map.mp (List.mem_filter.mp hk).1
  exact lowerL_folded raw c (trimL_mem (lowerL raw) c hc)

theorem all_congr_mem (l : List Str) (f g : Str → Bool) (h : ∀ x ∈ l, f x = g x) :
    l.all f = l.all g := by
  induction l with
  | nil => rfl
  | cons hd tl ih =>
    have hhd : f hd = g hd := h hd (List.mem_cons_self hd tl)
    have htl : tl.all f = tl.all g := ih (fun y hy => h y (List.mem_cons_of_mem hd hy))
    simp only [List.all_cons, hhd, htl]

/-- A wildcard-free, case-folded pattern followed by `%` LIKE-matches a
folded text exactly when the pattern is a literal prefix of the text. -/
theorem likeMatch_append_pct (k : Str) (hfree : likeWildcardFree k = true)
    (hk : ∀ c ∈ k, c.toLower = c) :
    ∀ t : Str, (∀ c ∈ t, c.toLower = c) → likeMatch (k ++ ['%']) t = isPrefixOfL k t := by
  induction k with
  | nil =>
    intro t _
    show likeMatch ['%'] t = true
    have hred : likeMatch ['%'] t = t.tails.any (fun suf => likeMatch [] suf) := by
      simp [likeMatch]
    rw [hred]
    exact List.any_eq_true.mpr ⟨[], (List.mem_tails _ _).mpr List.nil_suffix, rfl⟩
  | cons c cs ih =>
    have hall := List.all_eq_true.mp hfree
    have hc : (!(c == '%' || c == '_')) = true := hall c (by simp)
    have hc1 : ¬ c = '%' := by
      intro h
      subst h
      simp at hc
    have hc2 : ¬ c = '_' := by
      intro h
      subst h
      simp at hc
    have hfree2 : likeWildcardFree cs = true :=
      List.all_eq_true.mpr (fun x hx => hall x (by simp [hx]))
    have hk2 : ∀ x ∈ cs, x.toLower = x := fun x hx => hk x (by simp [hx])
    intro t ht
    cases t with
    | nil =>
      show likeMatch ((c :: cs) ++ ['%']) [] = isPrefixOfL (c :: cs) []
      simp [likeMatch, hc1, isPrefixOfL]
    | cons d ts =>
      show likeMatch ((c :: cs) ++ ['%']) (d :: ts) = isPrefixOfL (c :: cs) (d :: ts)
      have hd : d.toLower = d := ht d (by simp)
      have hts : ∀ x ∈ ts, x.toLower = x := fun x hx => ht x (by simp [hx])
      simp only [List.cons_append, likeMatch, if_neg hc1, if_neg hc2, isPrefixOfL,
        List.append_eq]
      rw [hk c (by simp), hd, ih hfree2 hk2 ts hts]

/-- `containsSeq` holds exactly when the needle is a prefix of some
suffix of the haystack. -/
theorem containsSeq_iff (k : Str) :
    ∀ t : Str, containsSeq t k = true ↔ ∃ t2, t2 <:+ t ∧ isPrefixOfL k t2 = true := by
  intro t
  induction t with
  | nil =>
    show k.isEmpty = true ↔ _
    constructor
    · intro h
      refine ⟨[], List.nil_suffix, ?_⟩
      cases k with
      | nil => rfl
      | cons a as => cases h
    · rintro ⟨t2, hsuff, hpre⟩
      have ht2 : t2 = [] := List.suffix_nil.mp hsuff
      subst ht2
      cases k with
      | nil => rfl
      | cons a as => cases hpre
  | cons c ts ih =>
    show (isPrefixOfL k (c :: ts) || containsSeq ts k) = true ↔ _
    rw [Bool.or_eq_true, ih]
    constructor
    · rintro (h | ⟨t2, hsuff, hpre⟩)
      · exact ⟨c :: ts, List.suffix_refl _, h⟩
      · exact ⟨t2, hsuff.trans (List.suffix_cons c ts), hpre⟩
    · rintro ⟨t2, hsuff, hpre⟩
      rcases List.suffix_cons_iff.mp hsuff with h | h
      · subst h
        exact Or.inl hpre
      · exact Or.inr ⟨t2, h, hpre⟩

/-- For a wildcard-free folded keyword and a folded text, the LIKE pattern
`%kw%` is equivalent to substring containment. -/
theorem likeMatch_infix_eq_containsSeq (k t : Str) (hfree : likeWildcardFree k = true)
    (hk : ∀ c ∈ k, c.toLower = c) (ht : ∀ c ∈ t, c.toLower = c) :
    likeMatch ('%' :: k ++ ['%']) t = containsSeq t k := by
  have hstar : likeMatch ('%' :: k ++ ['%']) t =
      t.tails.any (fun suf => likeMatch (k ++ ['%']) suf) := by
    show likeMatch ('%' :: (k ++ ['%'])) t = _
    simp [likeMatch]
  rw [hstar]
  cases hb : containsSeq t k with
  | false =>
    rw [Bool.eq_false_iff]
    intro hany
    obtain ⟨t2, ht2, hlm⟩ := List.any_eq_true.mp hany
    have hsuff : t2 <:+ t := (List.mem_tails _ _).mp ht2
    rw [likeMatch_append_pct k hfree hk t2
      (fun c hc => ht c (hsuff.sublist.subset hc))] at hlm
    have hcontra := (containsSeq_iff k t).mpr ⟨t2, hsuff, hlm⟩
    rw [hb] at hcontra
    cases hcontra
  | true =>
    obtain ⟨t2, hsuff, hpre⟩ := (containsSeq_iff k t).mp hb
    refine List.any_eq_true.mpr ⟨t2, (List.mem_tails _ _).mpr hsuff, ?_⟩
    rw [likeMatch_append_pct k hfree hk t2 (fun c hc => ht c (hsuff.sublist.subset hc))]
    exact hpre

/-- When no effective keyword contains a LIKE wildcard, the SQL row filter
agrees with the containsAll-based predicate. -/
theorem sqlRowMatches_eq_spec (calId : Str) (sUs eUs : Int) (kws : List Str) (r : CalRow)
    (hfree : ∀ k ∈ sqlKwPatterns kws, likeWildcardFree k = true) :
    sqlRowMatches calId sUs eUs kws r = specRowMatches calId sUs eUs kws r := by
  unfold sqlRowMatches specRowMatches containsAllL
  rw [all_congr_mem (sqlKwPatterns kws) _ (fun k => containsSeq (lowerL r.title) k)
      (fun k hk => likeMatch_infix_eq_containsSeq k (lowerL r.title) (hfree k hk)
        (sqlKwPatterns_folded kws k hk) (fun c hc => lowerL_folded r.title c hc)),
    sqlKw_all_eq_containsAllGo]

/-- The enumeration loop with an all-successful delete oracle returns
`matched = deleted = number of items satisfying the filter` and no errors. -/
theorem titleRangeScan_all_ok (kws : List Str) (sJs eJs : Int) (delOk : Nat → Bool)
    (hok : ∀ i, delOk i = true) :
    ∀ (items : List NativeItem) (i : Nat),
      titleRangeScan kws sJs eJs delOk items i =
        ((items.filter (titleRangeMatches kws sJs eJs)).length,
         (items.filter (titleRangeMatches kws sJs eJs)).length, 0) := by
  intro items
  induction items with
  | nil => intro i; rfl
  | cons it rest ih =>
    intro i
    by_cases hm : titleRangeMatches kws sJs eJs it = true
    · simp [titleRangeScan, hm, hok i, ih (i + 1), List.filter_cons]
    · simp [titleRangeScan, hm, ih (i + 1), List.filter_cons]

/-- C2 (counterexample): the reported matched count does not always equal
the number of items whose title contains every required substring and
whose start lies in `[start, end)`.  On the enumeration-based bulk delete
(tbsyncDeleteEasEventsByTitleRange), the per-item delete is awaited inside
the per-folder try/catch, so a throwing delete abandons the remaining
items of the folder: with two matching items whose first delete throws,
`matched` is 1 while 2 items match the filter. -/
theorem bulk_delete_matched_count_cex :
    (titleRangeScan [['a']] 0 10 (fun _ => false)
        [⟨['a'], some 5⟩, ⟨['a'], some 6⟩] 0).1 = 1 ∧
    ([(⟨['a'], some 5⟩ : NativeItem), ⟨['a'], some 6⟩].filter
        (titleRangeMatches [['a']] 0 10)).length = 2 := by
  exact ⟨rfl, rfl⟩

/-- C2 (amended): (1) on the SQL-based bulk delete, when no effective
keyword contains a LIKE wildcard (`%` or `_`), the reported candidate
count equals the number of rows of the target calendar whose title
contains every required substring case-insensitively and whose start lies
in `[start, end)`; (2) on the enumeration-based path, `matched` equals
that count provided every dispatched delete succeeds (a throwing delete
aborts the remaining scan of its folder, as in the counterexample);
(3) the wildcard proviso in (1) is necessary: the keyword "50%" is
interpolated into the pattern with no ESCAPE, so LIKE matches a title
containing "50" without the literal substring "50%". -/
theorem bulk_delete_matched_count_amended :
    (∀ (db : List CalRow) (calId : Str) (sUs eUs : Int) (kws : List Str),
       (∀ k ∈ sqlKwPatterns kws, likeWildcardFree k = true) →
       (sqlCandidates db calId sUs eUs kws).length =
         (db.filter (specRowMatches calId sUs eUs kws)).length) ∧
    (∀ (kws : List Str) (sJs eJs : Int) (delOk : Nat → Bool) (items : List NativeItem),
       (∀ i, delOk i = true) →
       (titleRangeScan kws sJs eJs delOk items 0).1 =
         (items.filter (titleRangeMatches kws sJs eJs)).length) ∧
    (sqlRowMatches ['c'] 0 10 [str "50%"] c2Row50 = true ∧
     specRowMatches ['c'] 0 10 [str "50%"] c2Row50 = false) := by
  refine ⟨?_, ?_, by decide, by decide⟩
  · intro db calId sUs eUs kws hfree
    unfold sqlCandidates
    rw [List.length_map,
      List.filter_congr (fun r _ => sqlRowMatches_eq_spec calId sUs eUs kws r hfree)]
  · intro kws sJs eJs delOk items hok
    rw [titleRangeScan_all_ok kws sJs eJs delOk hok items 0]

/-- C2 witness: the amended equalities at concrete inputs — the SQL count
with the wildcard-free keyword "standup", and the enumeration path with
one matching item and a succeeding delete. -/
theorem bulk_delete_matched_count_amended_witness :
    (sqlCandidates c3Db ['c'] 0 99999999999999999 [str "standup"]).length =
      (c3Db.filter (specRowMatches ['c'] 0 99999999999999999 [str "standup"])).length ∧
    (titleRangeScan [['a']] 0 10 (fun _ => true) [⟨['a'], some 5⟩] 0).1 =
      ([(⟨['a'], some 5⟩ : NativeItem)].filter (titleRangeMatches [['a']] 0 10)).length :=
  ⟨bulk_delete_matched_count_amended.1 c3Db ['c'] 0 99999999999999999 [str "standup"]
     (by decide),
   bulk_delete_matched_count_amended.2.1 [['a']] 0 10 (fun _ => true) [⟨['a'], some 5⟩]
     (fun _ => rfl)⟩

/-! ## Claim C3 -/

/-- C3 (counterexample): a bulk-delete request with an empty
required-substring list is not rejected.  With a valid user, calendar and
window and `titleMustContainAll = []`, the synchronous part registers a
workflow and answers `pending: true` (no ValidationError), the candidate
query matches every row of the calendar in the window regardless of title,
and the body dispatches a delete for each of them. -/
theorem empty_filter_rejected_cex :
    (syncAndDeleteEventsBySqlSync 1000 ServerState.initial
        [⟨['c'], ['C'], false⟩] c3Args).1.isErr = false ∧
    (syncAndDeleteEventsBySqlSync 1000 ServerState.initial
        [⟨['c'], ['C'], false⟩] c3Args).2.wfJobs.length = 1 ∧
    (sqlCandidates c3Db ['c'] (dtNativeUs ⟨2026, 2, 2, 0, 0⟩) (dtNativeUs ⟨2026, 2, 9, 0, 0⟩)
        []).length = 2 ∧
    (runSqlDeleteBody
        (.rows (sqlCandidates c3Db ['c'] (dtNativeUs ⟨2026, 2, 2, 0, 0⟩)
          (dtNativeUs ⟨2026, 2, 9, 0, 0⟩) []))
        (fun _ => true)).deleteTriggered = 2 := by
  refine ⟨?_, ?_, ?_, ?_⟩ <;> decide

/-- C3 (amended): an empty required-substring list is accepted, not
rejected: (1) with an empty keyword list the candidate query degenerates to
the pure calendar + time-window filter, matching every event in the
window; (2) the synchronous validation of `syncAndDeleteEventsBySql` never
inspects `titleMustContainAll`, so any two requests differing only in that
field get identical responses; (3) any request with a valid user, present
start/end, resolvable writable calendar and valid time range is accepted
with a registered workflow, whatever the keyword list. -/
theorem empty_filter_matches_window_amended :
    (∀ (db : List CalRow) (calId : Str) (sUs eUs : Int),
       sqlCandidates db calId sUs eUs [] =
         (db.filter (fun r => r.cal_id == calId &&
            (decide (sUs ≤ r.event_start) && decide (r.event_start < eUs)))).map
           (fun r => (r.id, r.title))) ∧
    (∀ (now : Nat) (st : ServerState) (cals : List Calendar) (a : Args)
       (kws : Option (List Str)),
       syncAndDeleteEventsBySqlSync now st cals { a with titleMustContainAll := kws } =
         syncAndDeleteEventsBySqlSync now st cals a) ∧
    (∀ (now : Nat) (st : ServerState) (cals : List Calendar) (a : Args) (target : Calendar),
       truthy a.tbsyncUser = true → truthy a.start = true → truthy a.endStr = true →
       resolveCalendar cals a.calendarId a.calendarName = some target →
       target.readOnly = false →
       (makeTimedRange (getS a.start) (getS a.endStr)).isOk = true →
       (syncAndDeleteEventsBySqlSync now st cals a).1.isErr = false ∧
       (syncAndDeleteEventsBySqlSync now st cals a).2.wfJobs.length =
         st.wfJobs.length + 1) := by
  refine ⟨?_, ?_, ?_⟩
  · intro db calId sUs eUs
    unfold sqlCandidates
    rw [List.filter_congr (fun r _ => ?_)]
    unfold sqlRowMatches sqlKwPatterns
    simp
  · intro now st cals a kws
    rfl
  · intro now st cals a target hu hs he hr hro hok
    rcases hm : makeTimedRange (getS a.start) (getS a.endStr) with _ | m | ⟨s, e⟩
    · rw [hm] at hok
      cases hok
    · rw [hm] at hok
      cases hok
    · simp [syncAndDeleteEventsBySqlSync, hu, hs, he, hr, hro, hm, BulkResp.isErr]

/-- C3 witness: the acceptance conjunct at the concrete empty-list request
of the counterexample. -/
theorem empty_filter_matches_window_amended_witness :
    (syncAndDeleteEventsBySqlSync 1000 ServerState.initial
        [⟨['c'], ['C'], false⟩] c3Args).1.isErr = false :=
  (empty_filter_matches_window_amended.2.2 1000 ServerState.initial
    [⟨['c'], ['C'], false⟩] c3Args ⟨['c'], ['C'], false⟩
    rfl rfl rfl (by decide) rfl (by decide)).1

/-! ## Claim C7 -/

theorem dispatchLoop_sum (ok : Nat → Bool) :
    ∀ (rs : List (Str × Str)) (i : Nat),
      (dispatchLoop ok rs i).1 + (dispatchLoop ok rs i).2 = rs.length := by
  intro rs
  induction rs with
  | nil => intro i; rfl
  | cons hd tl ih =>
    intro i
    have h := ih (i + 1)
    by_cases hi : ok i = true <;> simp [dispatchLoop, hi] <;> omega

/-- C7: in the SQL bulk-delete body every candidate is dispatched
independently: whatever the per-candidate outcomes, every candidate is
accounted for (`deleteTriggered + deleteErrors` equals the candidate
count), the workflow terminates with status "done" even when some
candidates failed, and the terminal status is "error" exactly when the
candidate-query phase itself threw (the post-sync triggers are fired
inside an empty catch without await, so they cannot fail the workflow). -/
theorem sql_delete_failure_isolation :
    (∀ (rs : List (Str × Str)) (ok : Nat → Bool),
       (runSqlDeleteBody (.rows rs) ok).status = "done" ∧
       (runSqlDeleteBody (.rows rs) ok).candidateCount = rs.length ∧
       (runSqlDeleteBody (.rows rs) ok).deleteTriggered +
         (runSqlDeleteBody (.rows rs) ok).deleteErrors = rs.length) ∧
    (∀ (q : QueryOutcome) (ok : Nat → Bool),
       (runSqlDeleteBody q ok).status = "error" ↔ ∃ m, q = .throws m) := by
  constructor
  · intro rs ok
    exact ⟨rfl, rfl, dispatchLoop_sum ok rs 0⟩
  · intro q ok
    cases q with
    | throws m => simp [runSqlDeleteBody]
    | rows rs => simp [runSqlDeleteBody]

/-- C7 witness: two candidates whose deletes both fail still yield a "done"
workflow with both candidates accounted for in the error tally. -/
theorem sql_delete_failure_isolation_witness :
    (runSqlDeleteBody (.rows [(['1'], ['a']), (['2'], ['b'])]) (fun _ => false)).status =
      "done" :=
  (sql_delete_failure_isolation.1 [(['1'], ['a']), (['2'], ['b'])] (fun _ => false)).1

/-! ## Claim C8 -/

/-- C8: a bulk-delete request whose start or end string is present but does
not form a valid range — it fails to parse as `YYYY-MM-DDTHH:MM`, or the
end does not come after the start — is rejected synchronously with an
error response: no workflow job is registered (the state is unchanged), so
no query or per-item delete can ever be dispatched, and the request never
silently yields an empty candidate set. -/
theorem bulk_delete_time_validation
    (now : Nat) (st : ServerState) (cals : List Calendar) (a : Args)
    (hs : truthy a.start = true) (he : truthy a.endStr = true)
    (hok : (makeTimedRange (getS a.start) (getS a.endStr)).isOk = false) :
    (syncAndDeleteEventsBySqlSync now st cals a).1.isErr = true ∧
    (syncAndDeleteEventsBySqlSync now st cals a).2 = st := by
  by_cases hu : truthy a.tbsyncUser = false
  · simp [syncAndDeleteEventsBySqlSync, hu, BulkResp.isErr]
  · rcases hr : resolveCalendar cals a.calendarId a.calendarName with _ | target
    · simp [syncAndDeleteEventsBySqlSync, hu, hs, he, hr, BulkResp.isErr]
    · by_cases hro : target.readOnly = true
      · simp [syncAndDeleteEventsBySqlSync, hu, hs, he, hr, hro, BulkResp.isErr]
      · rcases hm : makeTimedRange (getS a.start) (getS a.endStr) with _ | m | ⟨s, e⟩
        · simp [syncAndDeleteEventsBySqlSync, hu, hs, he, hr, hro, hm, BulkResp.isErr]
        · simp [syncAndDeleteEventsBySqlSync, hu, hs, he, hr, hro, hm, BulkResp.isErr]
        · rw [hm] at hok
          cases hok

/-- C8 witness: a malformed start string ("2026-13", not matching the
format) is rejected with the state unchanged. -/
theorem bulk_delete_time_validation_witness :
    (syncAndDeleteEventsBySqlSync 1000 ServerState.initial [] c8Args).1.isErr = true :=
  (bulk_delete_time_validation 1000 ServerState.initial [] c8Args rfl rfl (by decide)).1

/-! ## Claim C4 -/

/-- C4 (counterexample): the recorded step sequence of a fully successful
single-item create workflow is `start, preSync, create, postSync, done` —
not the claimed `preSync, mutate, postSync, postSync2, done`: the mutation
step is labelled "create", there is no separate "postSync2" label (the
second post-sync runs while the step is still "postSync"), and the record
starts at "start". -/
theorem create_workflow_steps_cex :
    fullStepTrace ⟨.value .ok, .value .ok, .value .ok, .value .ok⟩ =
        ["start", "preSync", "create", "postSync", "done"] ∧
    fullStepTrace ⟨.value .ok, .value .ok, .value .ok, .value .ok⟩ ≠
        ["preSync", "mutate", "postSync", "postSync2", "done"] := by
  constructor
  · rfl
  · decide

/-- C4 (amended): for every execution of the single-item create workflow,
the sequence of step labels recorded on the workflow record is exactly
`start, preSync, create, postSync` ending in `done`, or a strict prefix of
it (always reaching at least `preSync`) ending in `error`; steps are never
reordered, and a failure at any step — not only at preSync — truncates the
sequence. -/
theorem create_workflow_step_trace (env : WfEnv) :
    fullStepTrace env = ["start", "preSync", "create", "postSync", "done"] ∨
    ∃ k, 2 ≤ k ∧ k ≤ 4 ∧
      fullStepTrace env = (["start", "preSync", "create", "postSync"].take k) ++ ["error"] := by
  rcases env with ⟨pre, cr, p1, p2⟩
  cases pre with
  | throws m => exact Or.inr ⟨2, by omega, by omega, rfl⟩
  | value v =>
    cases cr with
    | throws m => exact Or.inr ⟨3, by omega, by omega, rfl⟩
    | value v2 =>
      cases p1 with
      | throws m => exact Or.inr ⟨4, by omega, by omega, rfl⟩
      | value v3 =>
        cases p2 with
        | throws m => exact Or.inr ⟨4, by omega, by omega, rfl⟩
        | value v4 => exact Or.inl rfl

/-! ## Claim C5 -/

/-- C5 (counterexample): a pre-sync failure does not always abort the
workflow before the mutation.  `tbsyncSyncAccountByUser` reports "No
TbSync account found with user=..." by returning an `{error}` payload
rather than throwing; the workflow body does not inspect the payload, so
it proceeds to `createCalendarEvent` and terminates "done". -/
theorem presync_error_payload_no_abort_cex :
    (runCreateWorkflowBody ⟨.value (.errPayload "No TbSync account found with user=u"),
        .value .ok, .value .ok, .value .ok⟩).createAttempted = true ∧
    (runCreateWorkflowBody ⟨.value (.errPayload "No TbSync account found with user=u"),
        .value .ok, .value .ok, .value .ok⟩).status = "done" :=
  ⟨rfl, rfl⟩

/-- C5 (amended): only a thrown pre-sync exception aborts the workflow: if
the pre-sync call throws, no mutation is attempted, the workflow
terminates with status "error", and the recorded error is exactly the
thrown error's string, without wrapping.  A pre-sync failure reported by a
returned `{error}` payload (no matching account, or an ambiguous user)
does not abort: the workflow still attempts the mutation. -/
theorem presync_abort_amended :
    (∀ (env : WfEnv) (m : String), env.preSync = .throws m →
       (runCreateWorkflowBody env).createAttempted = false ∧
       (runCreateWorkflowBody env).status = "error" ∧
       (runCreateWorkflowBody env).error = some m) ∧
    (∀ (env : WfEnv) (m : String), env.preSync = .value (.errPayload m) →
       (runCreateWorkflowBody env).createAttempted = true) := by
  constructor
  · intro env m h
    rcases env with ⟨pre, cr, p1, p2⟩
    obtain rfl : pre = .throws m := h
    exact ⟨rfl, rfl, rfl⟩
  · intro env m h
    rcases env with ⟨pre, cr, p1, p2⟩
    obtain rfl : pre = .value (.errPayload m) := h
    cases cr with
    | throws m2 => rfl
    | value v2 =>
      cases p1 with
      | throws m3 => rfl
      | value v3 =>
        cases p2 with
        | throws m4 => rfl
        | value v4 => rfl

/-- C5 witness: a thrown pre-sync error (TbSync not installed) aborts
before any mutation. -/
theorem presync_abort_amended_witness :
    (runCreateWorkflowBody ⟨.throws "Error: TbSync is not installed/enabled",
        .value .ok, .value .ok, .value .ok⟩).createAttempted = false :=
  (presync_abort_amended.1 ⟨.throws "Error: TbSync is not installed/enabled",
    .value .ok, .value .ok, .value .ok⟩ "Error: TbSync is not installed/enabled" rfl).1

end TbSyncMcp
